import Mathlib

/-!
# EnigmaIOT `debug.h`: the leveled debug call sites

A shallow embedding of `src/debug.h`.  The header is preprocessor text: what a
call site such as `DEBUG_INFO("temp=%d", 42)` becomes depends on which of
`DEBUG_ESP_PORT`, `ESP8266`, `ESP32` are defined and on the value of
`DEBUG_LEVEL`.  The embedding has three layers:

* the C library's bounded formatter (`snprintf_P`): the `printf` conversion
  specifications of C99 on a 32-bit target, writing into a fixed-size
  character array;
* the statements a call site expands to (`Stmt`), and their execution on the two
  static buffers `_dbg1`, `_dbg2`, recording every call of the dispatcher
  `_dbgP` and of the ESP32 logging subsystem;
* the five call-site definitions `DEBUG_VERBOSE` ... `DEBUG_ERROR`, one per
  `#define` group of the header, as functions of the build configuration.
-/

namespace EnigmaIOT

/-- The string terminator of C. -/
def NUL : Char := Char.ofNat 0

/-- The C string stored at the start of a character array: everything before
the first terminator. -/
def cstr (mem : List Char) : List Char := mem.takeWhile (fun c => c != NUL)

/-- An argument as it travels through a variadic call on the 32-bit targets of
the header (ILP32): a 32-bit integer word (`int`, `unsigned`, `long`,
`unsigned long`, `size_t`, `uint32_t`, and `char`/`short` after promotion), a
64-bit integer (`long long`, `intmax_t`), a `double` by its bit pattern, a
pointer to a character array, a pointer to a wide-character array, or any
other pointer by its address. -/
inductive Arg where
  | word (v : Nat)
  | quad (v : Nat)
  | dbl (bits : Nat)
  | str (s : List Char)
  | wstr (s : List Nat)
  | ptr (addr : Nat)
  deriving DecidableEq, Repr

/-- Unsigned decimal rendering of a 32-bit word (`%u`, `%lu`). -/
def decU (v : Nat) : List Char := Nat.toDigits 10 (v % 2 ^ 32)

/-- Signed decimal rendering of a 32-bit word (`%d`, `%i`, `%ld`): two's
complement. -/
def decS (v : Nat) : List Char :=
  if v % 2 ^ 32 < 2 ^ 31 then Nat.toDigits 10 (v % 2 ^ 32)
  else '-' :: Nat.toDigits 10 (2 ^ 32 - v % 2 ^ 32)

/-- Right-justify in a field of the given minimum width (a `printf` width with
no flag pads with blanks on the left). -/
def padLeft (w : Nat) (s : List Char) : List Char :=
  List.replicate (w - s.length) ' ' ++ s

/-- The length modifiers of a conversion specification. -/
inductive Len where
  | none
  | hh
  | h
  | l
  | ll
  | j
  | z
  | t
  | bigL
  deriving DecidableEq, Repr

/-- A conversion specification `%[flags][width][.precision][length]conv`, as
read so far: the five flags `-`, `+`, blank, `#`, `0`; the minimum field width
(0 when absent); the precision when given; the length modifier; the conversion
character. -/
structure Directive where
  minus : Bool
  plus : Bool
  space : Bool
  alt : Bool
  zero : Bool
  width : Nat
  prec : Option Nat
  len : Len
  conv : Char
  deriving DecidableEq, Repr

/-- The specification right after `%`: nothing read yet. -/
def Directive.init : Directive :=
  ⟨false, false, false, false, false, 0, none, .none, NUL⟩

/-- How far into a conversion specification the formatter has read. -/
inductive Stage where
  | flags
  | width
  | widthDone
  | dot
  | prec
  | precDone
  | len1
  | lenDone
  deriving DecidableEq, Repr

/-- A length modifier may still follow. -/
def Stage.beforeLen : Stage → Bool
  | .len1 => false
  | .lenDone => false
  | _ => true

/-- Where the formatter stands in the template: in literal text, or inside a
conversion specification. -/
inductive FmtState where
  | text
  | spec (stage : Stage) (d : Directive)
  deriving DecidableEq, Repr

/-- Lay a converted number out in its field.  `sign` is the sign character if
any, `pfx` the `0x` of the `#` flag if any, `digits` the digits of the value.
The precision is the minimum number of digits (default 1), met with leading
zeros.  Then the field is filled to the width: with blanks on the right under
the `-` flag, else with zeros after sign and base mark under the `0` flag when
no precision is given, else with blanks on the left. -/
def numberField (d : Directive) (sign pfx digits : List Char) : List Char :=
  let body := List.replicate (d.prec.getD 1 - digits.length) '0' ++ digits
  let fill := d.width - (sign.length + pfx.length + body.length)
  if d.minus then sign ++ pfx ++ body ++ List.replicate fill ' '
  else if d.zero && d.prec.isNone then sign ++ pfx ++ List.replicate fill '0' ++ body
  else List.replicate fill ' ' ++ (sign ++ pfx ++ body)

/-- Lay converted text (a character, a string) out in its field: blanks on the
right under the `-` flag, on the left otherwise. -/
def textField (d : Directive) (s : List Char) : List Char :=
  if d.minus then s ++ List.replicate (d.width - s.length) ' '
  else List.replicate (d.width - s.length) ' ' ++ s

/-- The integer argument an integer conversion takes under a length modifier:
its size in bits, its raw value and the arguments left.  `hh` and `h` take a
promoted `int` and convert it to 8 or 16 bits; `ll` and `j` take 64 bits; the
others 32.  `L` does not apply to integers. -/
def intArg : Len → List Arg → Option (Nat × Nat × List Arg)
  | .hh, .word v :: rest => some (8, v, rest)
  | .h, .word v :: rest => some (16, v, rest)
  | .none, .word v :: rest => some (32, v, rest)
  | .l, .word v :: rest => some (32, v, rest)
  | .z, .word v :: rest => some (32, v, rest)
  | .t, .word v :: rest => some (32, v, rest)
  | .ll, .quad v :: rest => some (64, v, rest)
  | .j, .quad v :: rest => some (64, v, rest)
  | _, _ => none

/-- The digits of a magnitude; none at all for zero under precision zero. -/
def digitsOf (d : Directive) (base : Nat) (m : Nat) : List Char :=
  if m = 0 ∧ d.prec = some 0 then [] else Nat.toDigits base m

/-- Convert one complete specification: the text it produces and the arguments
left.  `none` where C leaves the behaviour undefined: no argument or one of
the wrong kind, a flag or precision on a conversion it is not defined for, an
unknown conversion character.  The conversions whose text the implementation
or the locale defines (floating point, `%p`, wide characters) are taken from
`lib`. -/
def convert (lib : Directive → Arg → List Char) (d : Directive) (args : List Arg) :
    Option (List Char × List Arg) :=
  if d.conv = '%' then
    if d = { Directive.init with conv := '%' } then some (['%'], args) else none
  else if d.conv = 'd' ∨ d.conv = 'i' then
    if d.alt then none
    else
      match intArg d.len args with
      | some (bits, v, rest) =>
        let m := v % 2 ^ bits
        if m < 2 ^ (bits - 1) then
          some (numberField d (if d.plus then ['+'] else if d.space then [' '] else []) []
            (digitsOf d 10 m), rest)
        else some (numberField d ['-'] [] (digitsOf d 10 (2 ^ bits - m)), rest)
      | none => none
  else if d.conv = 'u' then
    if d.alt then none
    else
      match intArg d.len args with
      | some (bits, v, rest) => some (numberField d [] [] (digitsOf d 10 (v % 2 ^ bits)), rest)
      | none => none
  else if d.conv = 'o' then
    match intArg d.len args with
    | some (bits, v, rest) =>
      let ds := digitsOf d 8 (v % 2 ^ bits)
      some (numberField d [] [] (if d.alt ∧ ds.head? ≠ some '0' then '0' :: ds else ds), rest)
    | none => none
  else if d.conv = 'x' then
    match intArg d.len args with
    | some (bits, v, rest) =>
      some (numberField d [] (if d.alt ∧ v % 2 ^ bits ≠ 0 then ['0', 'x'] else [])
        (digitsOf d 16 (v % 2 ^ bits)), rest)
    | none => none
  else if d.conv = 'X' then
    match intArg d.len args with
    | some (bits, v, rest) =>
      some (numberField d [] (if d.alt ∧ v % 2 ^ bits ≠ 0 then ['0', 'X'] else [])
        ((digitsOf d 16 (v % 2 ^ bits)).map Char.toUpper), rest)
    | none => none
  else if d.conv = 'c' then
    if d.alt || d.zero || d.prec.isSome then none
    else
      match d.len, args with
      | .none, .word v :: rest => some (textField d [Char.ofNat (v % 256)], rest)
      | .l, .word v :: rest => some (lib d (.word v), rest)
      | _, _ => none
  else if d.conv = 's' then
    if d.alt || d.zero then none
    else
      match d.len, args with
      | .none, .str s :: rest =>
        some (textField d (match d.prec with
          | some p => (cstr s).take p
          | none => cstr s), rest)
      | .l, .wstr s :: rest => some (lib d (.wstr s), rest)
      | _, _ => none
  else if d.conv = 'p' then
    match d.len, args with
    | .none, .ptr a :: rest => some (lib d (.ptr a), rest)
    | _, _ => none
  else if d.conv = 'n' then
    if d = { Directive.init with len := d.len, conv := 'n' } then
      match args with
      | .ptr _ :: rest => some ([], rest)
      | _ => none
    else none
  else if d.conv = 'f' ∨ d.conv = 'F' ∨ d.conv = 'e' ∨ d.conv = 'E' ∨ d.conv = 'g' ∨
      d.conv = 'G' ∨ d.conv = 'a' ∨ d.conv = 'A' then
    match d.len, args with
    | .none, .dbl b :: rest => some (lib d (.dbl b), rest)
    | .l, .dbl b :: rest => some (lib d (.dbl b), rest)
    | .bigL, .dbl b :: rest => some (lib d (.dbl b), rest)
    | _, _ => none
  else none

/-- What reading one character inside a conversion specification leads to: more
of the specification to read, the text of the completed conversion, or
undefined behaviour. -/
inductive Step where
  | more (stage : Stage) (d : Directive) (args : List Arg)
  | emit (out : List Char) (args : List Arg)
  | undefined
  deriving DecidableEq, Repr

/-- Read one character of a conversion specification, in the order the C
grammar fixes: flags, then a width (digits, or `*` for an `int` argument, a
negative one meaning the `-` flag and its absolute value), then `.` and a
precision (digits, or `*`, a negative one meaning none), then a length
modifier, then the conversion character, which completes it. -/
def step (lib : Directive → Arg → List Char) (stage : Stage) (d : Directive) (c : Char)
    (args : List Arg) : Step :=
  if stage = .flags ∧ c = '-' then .more .flags { d with minus := true } args
  else if stage = .flags ∧ c = '+' then .more .flags { d with plus := true } args
  else if stage = .flags ∧ c = ' ' then .more .flags { d with space := true } args
  else if stage = .flags ∧ c = '#' then .more .flags { d with alt := true } args
  else if stage = .flags ∧ c = '0' then .more .flags { d with zero := true } args
  else if c.isDigit then
    if stage = .flags ∨ stage = .width then
      .more .width { d with width := d.width * 10 + (c.toNat - '0'.toNat) } args
    else if stage = .dot ∨ stage = .prec then
      .more .prec { d with prec := some (d.prec.getD 0 * 10 + (c.toNat - '0'.toNat)) } args
    else .undefined
  else if c = '*' then
    match stage, args with
    | .flags, .word v :: rest =>
      if v % 2 ^ 32 < 2 ^ 31 then .more .widthDone { d with width := v % 2 ^ 32 } rest
      else .more .widthDone { d with minus := true, width := 2 ^ 32 - v % 2 ^ 32 } rest
    | .dot, .word v :: rest =>
      .more .precDone
        { d with prec := if v % 2 ^ 32 < 2 ^ 31 then some (v % 2 ^ 32) else none } rest
    | _, _ => .undefined
  else if c = '.' then
    if stage = .flags ∨ stage = .width ∨ stage = .widthDone then
      .more .dot { d with prec := some 0 } args
    else .undefined
  else if c = 'h' then
    if stage = .len1 ∧ d.len = .h then .more .lenDone { d with len := .hh } args
    else if stage.beforeLen then .more .len1 { d with len := .h } args
    else .undefined
  else if c = 'l' then
    if stage = .len1 ∧ d.len = .l then .more .lenDone { d with len := .ll } args
    else if stage.beforeLen then .more .len1 { d with len := .l } args
    else .undefined
  else if c = 'j' then
    if stage.beforeLen then .more .lenDone { d with len := .j } args else .undefined
  else if c = 'z' then
    if stage.beforeLen then .more .lenDone { d with len := .z } args else .undefined
  else if c = 't' then
    if stage.beforeLen then .more .lenDone { d with len := .t } args else .undefined
  else if c = 'L' then
    if stage.beforeLen then .more .lenDone { d with len := .bigL } args else .undefined
  else
    match convert lib { d with conv := c } args with
    | some (out, rest) => .emit out rest
    | none => .undefined

/-- The full text a `printf`-family call produces (what `vsnprintf` would write
into an unbounded buffer), following C99 7.19.6.1 on an ILP32 target.  Literal
characters are copied; each conversion specification is read by `step` and
converted by `convert`.  The template is read up to its terminator; arguments
beyond the last specification are ignored, as in C.  `none` stands for
undefined behaviour: a template that ends inside a specification, a
specification out of the grammar, or a conversion `convert` rejects. -/
def render (lib : Directive → Arg → List Char) :
    FmtState → List Char → List Arg → Option (List Char)
  | .text, [], _ => some []
  | .spec _ _, [], _ => none
  | .text, c :: fmt, args =>
    if c = NUL then some []
    else if c = '%' then render lib (.spec .flags Directive.init) fmt args
    else (render lib .text fmt args).map (fun out => c :: out)
  | .spec stage d, c :: fmt, args =>
    match step lib stage d c args with
    | .more stage' d' args' => render lib (.spec stage' d') fmt args'
    | .emit out args' => (render lib .text fmt args').map (fun out' => out ++ out')
    | .undefined => none


/-- The effect of `snprintf(dst, size, ...)` on the array `dst`, given the full
formatted text: at most `size - 1` characters are stored, then a terminator;
the rest of the array is untouched.  With `size = 0` nothing is written. -/
def writeBounded (dst : List Char) (size : Nat) (full : List Char) : List Char :=
  if size = 0 then dst
  else
    let out := full.take (size - 1) ++ [NUL]
    out ++ dst.drop out.length

/-! ## The header's constants -/

/-- Debug level that gives no debug output. -/
def NO_DEBUG : Int := 0
/-- Debug level that gives error messages. -/
def ERROR : Int := 1
/-- Debug level that gives error and warning messages. -/
def WARN : Int := 2
/-- Debug level that gives error, warning and info messages. -/
def INFO : Int := 3
/-- Debug level that gives error, warning, info and dbg messages. -/
def DBG : Int := 4
/-- Debug level that gives all defined messages. -/
def VERBOSE : Int := 5

/-- Size of the static array `_dbg1`. -/
def DBG1_LEN : Nat := 72
/-- Size of the static array `_dbg2`. -/
def DBG2_LEN : Nat := 140

/-- The component tag of the ESP32 branch. -/
def DEFAULT_LOG_TAG : List Char := "EnigmaIOT".toList

/-- What the preprocessor knows when it reads the header: which of the three
names are defined, and the value of `DEBUG_LEVEL` (set in `EnigmaIoTconfig.h`,
which is not part of the header; `#if` arithmetic is signed). -/
structure Config where
  DEBUG_ESP_PORT : Bool
  ESP8266 : Bool
  ESP32 : Bool
  DEBUG_LEVEL : Int
  deriving DecidableEq, Repr

/-- What the compiler substitutes at a call site for `__FILE__`, `__LINE__`
and `__FUNCTION__`. -/
structure Site where
  FILE : List Char
  LINE : Nat
  FUNCTION : List Char
  deriving DecidableEq, Repr

/-! ## Statements and their execution -/

/-- The two static arrays of the header. -/
inductive Buf where
  | _dbg1
  | _dbg2
  deriving DecidableEq, Repr

/-- The five logging entry points of `esp_log.h` used by the ESP32 branch. -/
inductive EspLog where
  | ESP_LOGE
  | ESP_LOGW
  | ESP_LOGI
  | ESP_LOGD
  | ESP_LOGV
  deriving DecidableEq, Repr

/-- The argument expressions that occur in the expansions.  A user argument is
carried as its value. -/
inductive Expr where
  | _getMS
  | extractFileName (file : List Char)
  | LINE (n : Nat)
  | FUNCTION (name : List Char)
  | getFreeHeap
  | millis
  | user (a : Arg)
  deriving DecidableEq, Repr

/-- The statements a call site can expand to, and the two forms needed to put a
call site under an `if`: the conditional with a single-statement body, and the
empty statement. -/
inductive Stmt where
  | snprintf_P (dst : Buf) (size : Nat) (fmt : List Char) (args : List Expr)
  | _dbgP (level : Int) (one two : Buf)
  | espLog (entry : EspLog) (tag : List Char) (fmt : List Char) (args : List Expr)
  | ifThen (c : Bool) (body : Stmt)
  | empty
  deriving DecidableEq, Repr

/-- Modelled from the spec: the definition of `extractFileName` is not in the
header (only its declaration is), and the spec does not name the separator
characters, so they are a parameter.  This is the scan behind it: walking the
path once, remember the offset just past the most recent separator (0 while
none has been seen).  `i` counts the characters already passed. -/
def lastSeparatorEnd (isSep : Char → Bool) : List Char → Nat → Nat → Nat
  | [], _, pos => pos
  | c :: rest, i, pos =>
    if isSep c then lastSeparatorEnd isSep rest (i + 1) (i + 1)
    else lastSeparatorEnd isSep rest (i + 1) pos

/-- Modelled from the spec: `extractFileName`, whose definition is not in the
header.  "Return a pointer into the same string data at the offset of the
character immediately following the last path-separator, or the start of the
string if no separator is present": the result is the path from that offset
on. -/
def extractFileName (isSep : Char → Bool) (path : List Char) : List Char :=
  path.drop (lastSeparatorEnd isSep path 0 0)

/-- What the expansions read from outside the header at run time: the string
`_getMS()` returns, the readings of `ESP.getFreeHeap()` and `millis()` (both
32-bit unsigned), the separators `extractFileName` recognises, and the text
the C library gives the conversions it defines itself (see `convert`). -/
structure Env where
  _getMS : List Char
  getFreeHeap : Nat
  millis : Nat
  isSep : Char → Bool
  implDefined : Directive → Arg → List Char

/-- The value of an argument expression. -/
def Expr.eval (env : Env) : Expr → Arg
  | ._getMS => .str env._getMS
  | .extractFileName file => .str (EnigmaIOT.extractFileName env.isSep file)
  | .LINE n => .word n
  | .FUNCTION name => .str name
  | .getFreeHeap => .word env.getFreeHeap
  | .millis => .word env.millis
  | .user a => a

/-- One call of the dispatcher `_dbgP(level, one, two)`, as seen from outside:
the level and the two C strings it was handed. -/
structure Dispatch where
  level : Int
  one : List Char
  two : List Char
  deriving DecidableEq, Repr

/-- One invocation of the ESP32 logging subsystem: the entry point, the tag and
the text its format and arguments render to. -/
structure LogCall where
  entry : EspLog
  tag : List Char
  text : List Char
  deriving DecidableEq, Repr

/-- The memory the expansions touch (the two static arrays) and the trace of
calls that left the header. -/
structure State where
  _dbg1 : List Char
  _dbg2 : List Char
  dispatched : List Dispatch
  logged : List LogCall
  deriving DecidableEq, Repr

/-- Static arrays start zero-filled; nothing has been emitted. -/
def State.init : State :=
  { _dbg1 := List.replicate DBG1_LEN NUL, _dbg2 := List.replicate DBG2_LEN NUL,
    dispatched := [], logged := [] }

/-- Read one of the two arrays. -/
def State.buf (st : State) : Buf → List Char
  | ._dbg1 => st._dbg1
  | ._dbg2 => st._dbg2

/-- Replace one of the two arrays. -/
def State.setBuf (st : State) : Buf → List Char → State
  | ._dbg1, mem => { st with _dbg1 := mem }
  | ._dbg2, mem => { st with _dbg2 := mem }

/-- Execute one statement.  `none` when a formatting call is one C leaves
undefined (see `render`). -/
def Stmt.exec (env : Env) (st : State) : Stmt → Option State
  | .snprintf_P dst size fmt args =>
    (render env.implDefined .text fmt (args.map (Expr.eval env))).map
      (fun full => st.setBuf dst (writeBounded (st.buf dst) size full))
  | ._dbgP level one two =>
    some { st with
      dispatched := st.dispatched ++ [⟨level, cstr (st.buf one), cstr (st.buf two)⟩] }
  | .espLog entry tag fmt args =>
    (render env.implDefined .text fmt (args.map (Expr.eval env))).map
      (fun full => { st with logged := st.logged ++ [⟨entry, tag, full⟩] })
  | .ifThen c body => if c then body.exec env st else some st
  | .empty => some st

/-- Execute a statement sequence from left to right. -/
def run (env : Env) : List Stmt → State → Option State
  | [], st => some st
  | s :: rest, st => (s.exec env st).bind (run env rest)

/-! ## The call sites -/

/-- The expansion of `D_PFX()`: format the line head into `_dbg1`. -/
def D_PFX (site : Site) : Stmt :=
  .snprintf_P ._dbg1 DBG1_LEN "%s %s:%d %s Heap:%lu".toList
    [._getMS, .extractFileName site.FILE, .LINE site.LINE, .FUNCTION site.FUNCTION,
      .getFreeHeap]

/-- The call site `DEBUG_VERBOSE(text, ...)`: the statements it becomes, `none`
when the header leaves the name undefined. -/
def DEBUG_VERBOSE (cfg : Config) (site : Site) (text : List Char) (args : List Arg) :
    Option (List Stmt) :=
  if cfg.DEBUG_ESP_PORT then
    if cfg.ESP8266 then
      if cfg.DEBUG_LEVEL ≥ VERBOSE then
        some [D_PFX site, .snprintf_P ._dbg2 DBG2_LEN text (args.map .user),
          ._dbgP VERBOSE ._dbg1 ._dbg2]
      else some []
    else if cfg.ESP32 then
      some [.espLog .ESP_LOGV DEFAULT_LOG_TAG ("%d Heap: %6d. ".toList ++ text)
        (.millis :: .getFreeHeap :: args.map .user)]
    else none
  else some []

/-- The call site `DEBUG_DBG(text, ...)`. -/
def DEBUG_DBG (cfg : Config) (site : Site) (text : List Char) (args : List Arg) :
    Option (List Stmt) :=
  if cfg.DEBUG_ESP_PORT then
    if cfg.ESP8266 then
      if cfg.DEBUG_LEVEL ≥ DBG then
        some [D_PFX site, .snprintf_P ._dbg2 DBG2_LEN text (args.map .user),
          ._dbgP DBG ._dbg1 ._dbg2]
      else some []
    else if cfg.ESP32 then
      some [.espLog .ESP_LOGD DEFAULT_LOG_TAG ("%d Heap: %6d ".toList ++ text)
        (.millis :: .getFreeHeap :: args.map .user)]
    else none
  else some []

/-- The call site `DEBUG_INFO(text, ...)`. -/
def DEBUG_INFO (cfg : Config) (site : Site) (text : List Char) (args : List Arg) :
    Option (List Stmt) :=
  if cfg.DEBUG_ESP_PORT then
    if cfg.ESP8266 then
      if cfg.DEBUG_LEVEL ≥ INFO then
        some [D_PFX site, .snprintf_P ._dbg2 DBG2_LEN text (args.map .user),
          ._dbgP INFO ._dbg1 ._dbg2]
      else some []
    else if cfg.ESP32 then
      some [.espLog .ESP_LOGI DEFAULT_LOG_TAG ("%d Heap: %6d ".toList ++ text)
        (.millis :: .getFreeHeap :: args.map .user)]
    else none
  else some []

/-- The call site `DEBUG_WARN(text, ...)`. -/
def DEBUG_WARN (cfg : Config) (site : Site) (text : List Char) (args : List Arg) :
    Option (List Stmt) :=
  if cfg.DEBUG_ESP_PORT then
    if cfg.ESP8266 then
      if cfg.DEBUG_LEVEL ≥ WARN then
        some [D_PFX site, .snprintf_P ._dbg2 DBG2_LEN text (args.map .user),
          ._dbgP WARN ._dbg1 ._dbg2]
      else some []
    else if cfg.ESP32 then
      some [.espLog .ESP_LOGW DEFAULT_LOG_TAG ("%d Heap: %6d ".toList ++ text)
        (.millis :: .getFreeHeap :: args.map .user)]
    else none
  else some []

/-- The call site `DEBUG_ERROR(text, ...)`. -/
def DEBUG_ERROR (cfg : Config) (site : Site) (text : List Char) (args : List Arg) :
    Option (List Stmt) :=
  if cfg.DEBUG_ESP_PORT then
    if cfg.ESP8266 then
      if cfg.DEBUG_LEVEL ≥ ERROR then
        some [D_PFX site, .snprintf_P ._dbg2 DBG2_LEN text (args.map .user),
          ._dbgP ERROR ._dbg1 ._dbg2]
      else some []
    else if cfg.ESP32 then
      some [.espLog .ESP_LOGE DEFAULT_LOG_TAG ("%d Heap: %6d ".toList ++ text)
        (.millis :: .getFreeHeap :: args.map .user)]
    else none
  else some []

/-- The five severities a call site can carry. -/
inductive Level where
  | error
  | warn
  | info
  | dbg
  | verbose
  deriving DecidableEq, Repr

/-- The level constant of a severity. -/
def Level.value : Level → Int
  | .error => ERROR
  | .warn => WARN
  | .info => INFO
  | .dbg => DBG
  | .verbose => VERBOSE

/-- The call site of a severity: the definition of that name. -/
def callSite (cfg : Config) : Level → Site → List Char → List Arg → Option (List Stmt)
  | .error => DEBUG_ERROR cfg
  | .warn => DEBUG_WARN cfg
  | .info => DEBUG_INFO cfg
  | .dbg => DEBUG_DBG cfg
  | .verbose => DEBUG_VERBOSE cfg

/-- The statement sequence of `if (c) M(...);` for a call site that expands to
`stmts`: the expansion is spliced in as text, so the `if` takes the first
statement as its body and the others follow it; an empty expansion leaves
`if (c) ;`. -/
def underIf (c : Bool) : List Stmt → List Stmt
  | [] => [.ifThen c .empty]
  | s :: rest => .ifThen c s :: rest

/-- The severity mapping as the spec words it: VERBOSE to verbose, DEBUG to
debug, INFO to info, WARN to warning, ERROR to error, each named by the entry
point of that platform severity. -/
def specSeverity : Level → EspLog
  | .verbose => .ESP_LOGV
  | .dbg => .ESP_LOGD
  | .info => .ESP_LOGI
  | .warn => .ESP_LOGW
  | .error => .ESP_LOGE

/-- The line head as the spec words it: timestamp string, blank, base name of
the file, colon, line, blank, routine name, " Heap:", free-memory bytes, the
two numbers in decimal. -/
def specLineHead (ts base : List Char) (line : Nat) (routine : List Char) (heap : Nat) :
    List Char :=
  ts ++ " ".toList ++ base ++ ":".toList ++ Nat.toDigits 10 line ++ " ".toList ++ routine ++
    " Heap:".toList ++ Nat.toDigits 10 heap

/-- The full text of the `D_PFX` formatting call at a call site, before it is
cut to the array: each `%s` argument read up to its terminator, the line as a
signed and the heap reading as an unsigned 32-bit number. -/
def lineHead (env : Env) (site : Site) : List Char :=
  cstr env._getMS ++ ' ' :: (cstr (extractFileName env.isSep site.FILE) ++ ':' ::
    (decS site.LINE ++ ' ' :: (cstr site.FUNCTION ++ (" Heap:".toList ++ decU env.getFreeHeap))))

/-- The format text the ESP32 branch puts before the user's template: two
integer directives; the `DEBUG_VERBOSE` one has a full stop after the second. -/
def facilityPreamble : Level → List Char
  | .verbose => "%d Heap: %6d. ".toList
  | _ => "%d Heap: %6d ".toList

/-- What the preamble renders to with the readings of `millis()` and
`ESP.getFreeHeap()`: both as signed 32-bit decimals, the second right-justified
in six columns. -/
def facilityText (L : Level) (ms heap : Nat) : List Char :=
  decS ms ++ (" Heap: ".toList ++ (padLeft 6 (decS heap) ++
    (match L with
      | .verbose => ". ".toList
      | _ => " ".toList)))

/-- The array `mem` holds the terminated string `s`: the characters of `s`,
none of them the terminator, then the terminator. -/
def Holds (mem s : List Char) : Prop :=
  (∀ c ∈ s, c ≠ NUL) ∧ ∃ rest, mem = s ++ NUL :: rest

/-- The forwarded text names the call site the way the stream line head does:
it contains `basename:line` and the routine name. -/
def CarriesLocation (isSep : Char → Bool) (site : Site) (text : List Char) : Prop :=
  (extractFileName isSep site.FILE ++ ':' :: Nat.toDigits 10 site.LINE) <:+: text ∧
    site.FUNCTION <:+: text

/-- The state a retained stream call site leaves when its user template renders
to `msg`: both arrays rewritten, one dispatcher call appended. -/
def streamResult (env : Env) (L : Level) (site : Site) (st : State) (msg : List Char) : State :=
  { _dbg1 := writeBounded st._dbg1 DBG1_LEN (lineHead env site)
    _dbg2 := writeBounded st._dbg2 DBG2_LEN msg
    dispatched := st.dispatched ++
      [⟨L.value, cstr (writeBounded st._dbg1 DBG1_LEN (lineHead env site)),
        cstr (writeBounded st._dbg2 DBG2_LEN msg)⟩]
    logged := st.logged }

/-! ## Lemmas on the formatter -/

theorem digitChar_ne_NUL (d : Nat) : Nat.digitChar d ≠ NUL := by
  by_cases h : d < 16
  · interval_cases d <;> decide
  · have hstar : Nat.digitChar d = '*' := by
      unfold Nat.digitChar
      repeat' (rw [if_neg (by omega)])
    rw [hstar]; decide

theorem toDigitsCore_noNUL (b : Nat) :
    ∀ (fuel n : Nat) (acc : List Char), (∀ c ∈ acc, c ≠ NUL) →
      ∀ c ∈ Nat.toDigitsCore b fuel n acc, c ≠ NUL := by
  intro fuel
  induction fuel with
  | zero => intro n acc hacc; simpa [Nat.toDigitsCore] using hacc
  | succ f ih =>
    intro n acc hacc
    have hcons : ∀ c ∈ Nat.digitChar (n % b) :: acc, c ≠ NUL := by
      intro c hc
      rcases List.mem_cons.1 hc with h | h
      · rw [h]; exact digitChar_ne_NUL _
      · exact hacc c h
    simp only [Nat.toDigitsCore]
    split_ifs
    · exact hcons
    · exact ih _ _ hcons

theorem toDigits_noNUL (b n : Nat) : ∀ c ∈ Nat.toDigits b n, c ≠ NUL :=
  toDigitsCore_noNUL b _ _ [] (by simp)

theorem decU_noNUL (v : Nat) : ∀ c ∈ decU v, c ≠ NUL := toDigits_noNUL _ _

theorem decS_noNUL (v : Nat) : ∀ c ∈ decS v, c ≠ NUL := by
  unfold decS
  split_ifs
  · exact toDigits_noNUL _ _
  · intro c hc
    rcases List.mem_cons.1 hc with h | h
    · rw [h]; decide
    · exact toDigits_noNUL _ _ c h

theorem cstr_noNUL (mem : List Char) : ∀ c ∈ cstr mem, c ≠ NUL := by
  intro c hc
  have := List.mem_takeWhile_imp hc
  simpa using this

theorem padLeft_noNUL (w : Nat) (s : List Char) (hs : ∀ c ∈ s, c ≠ NUL) :
    ∀ c ∈ padLeft w s, c ≠ NUL := by
  intro c hc
  rcases List.mem_append.1 hc with h | h
  · rw [(List.mem_replicate.1 h).2]; decide
  · exact hs c h

theorem cstr_eq_self (s : List Char) (hs : ∀ c ∈ s, c ≠ NUL) : cstr s = s := by
  unfold cstr
  rw [List.takeWhile_eq_self_iff]
  intro c hc
  simpa using hs c hc

theorem cstr_append_NUL (s rest : List Char) : cstr (s ++ NUL :: rest) = cstr s := by
  induction s with
  | nil => simp [cstr]
  | cons a t ih =>
    simp only [cstr] at ih ⊢
    by_cases ha : a = NUL
    · simp [List.takeWhile_cons, ha]
    · simp [List.takeWhile_cons, ha, ih]

theorem cstr_take (k : Nat) (l : List Char) : cstr (l.take k) = (cstr l).take k := by
  induction l generalizing k with
  | nil => simp [cstr]
  | cons a t ih =>
    cases k with
    | zero => simp [cstr]
    | succ k =>
      have := ih k
      simp only [cstr] at this ⊢
      by_cases ha : a = NUL
      · simp [List.takeWhile_cons, ha]
      · simp [List.takeWhile_cons, ha, this]

theorem holds_append_NUL (l rest : List Char) : Holds (l ++ NUL :: rest) (cstr l) := by
  refine ⟨cstr_noNUL l, ?_⟩
  induction l with
  | nil => exact ⟨rest, by simp [cstr]⟩
  | cons a t ih =>
    rcases ih with ⟨r, hr⟩
    by_cases ha : a = NUL
    · refine ⟨t ++ NUL :: rest, ?_⟩
      simp [cstr, List.takeWhile_cons, ha]
    · refine ⟨r, ?_⟩
      have hc : cstr (a :: t) = a :: cstr t := by simp [cstr, List.takeWhile_cons, ha]
      rw [hc, List.cons_append, List.cons_append, hr]

theorem Holds.cstr_eq {mem s : List Char} (h : Holds mem s) : cstr mem = s := by
  rcases h with ⟨hs, rest, rfl⟩
  rw [cstr_append_NUL, cstr_eq_self s hs]

theorem writeBounded_eq (dst full : List Char) (size : Nat) (hsize : 0 < size) :
    writeBounded dst size full
      = full.take (size - 1) ++ NUL :: dst.drop (full.take (size - 1) ++ [NUL]).length := by
  simp [writeBounded, Nat.pos_iff_ne_zero.1 hsize]

theorem cstr_writeBounded (dst full : List Char) (size : Nat) (hsize : 0 < size) :
    cstr (writeBounded dst size full) = (cstr full).take (size - 1) := by
  rw [writeBounded_eq dst full size hsize, cstr_append_NUL, cstr_take]

theorem writeBounded_holds (dst full : List Char) (size : Nat) (hsize : 0 < size) :
    Holds (writeBounded dst size full) (cstr (writeBounded dst size full)) := by
  rw [cstr_writeBounded dst full size hsize, ← cstr_take, writeBounded_eq dst full size hsize]
  exact holds_append_NUL _ _

theorem writeBounded_length (dst full : List Char) (size : Nat) (hsize : size ≤ dst.length) :
    (writeBounded dst size full).length = dst.length := by
  unfold writeBounded
  split_ifs with h0
  · rfl
  · simp only [List.length_append, List.length_take, List.length_drop, List.length_cons,
      List.length_nil]
    omega

theorem cstr_writeBounded_length (dst full : List Char) (size : Nat) (hsize : 0 < size) :
    (cstr (writeBounded dst size full)).length ≤ size - 1 := by
  rw [cstr_writeBounded dst full size hsize]
  exact List.length_take_le _ _

theorem toDigits_length_pos (b n : Nat) : 1 ≤ (Nat.toDigits b n).length := by
  unfold Nat.toDigits
  rw [Nat.toDigitsCore]
  split_ifs
  · simp
  · rw [Nat.toDigitsCore_lens_eq]; omega

theorem replicate_prec_default (b n : Nat) :
    List.replicate (1 - (Nat.toDigits b n).length) '0' = [] := by
  have h := toDigits_length_pos b n
  have h0 : 1 - (Nat.toDigits b n).length = 0 := by omega
  rw [h0]; rfl

theorem convert_d (lib : Directive → Arg → List Char) (w v : Nat) (rest : List Arg) :
    convert lib ⟨false, false, false, false, false, w, none, .none, 'd'⟩ (.word v :: rest)
      = some (padLeft w (decS v), rest) := by
  unfold convert
  simp only [Char.reduceEq, if_false, false_or, or_false, true_or, if_true]
  by_cases h : v % 4294967296 < 2147483648
  · simp [intArg, numberField, digitsOf, replicate_prec_default, padLeft, decS, h]
  · simp [intArg, numberField, digitsOf, replicate_prec_default, padLeft, decS, h, Nat.add_comm]

theorem convert_lu (lib : Directive → Arg → List Char) (v : Nat) (rest : List Arg) :
    convert lib ⟨false, false, false, false, false, 0, none, .l, 'u'⟩ (.word v :: rest)
      = some (decU v, rest) := by
  unfold convert
  simp only [Char.reduceEq, if_false, false_or, or_false, true_or, if_true]
  simp [intArg, numberField, digitsOf, replicate_prec_default, decU]

theorem convert_s (lib : Directive → Arg → List Char) (s : List Char) (rest : List Arg) :
    convert lib ⟨false, false, false, false, false, 0, none, .none, 's'⟩ (.str s :: rest)
      = some (cstr s, rest) := by
  unfold convert
  simp only [Char.reduceEq, if_false, false_or, or_false, true_or, if_true]
  simp [textField]

theorem render_D_PFX (lib : Directive → Arg → List Char) (a b c : List Char) (n h : Nat) :
    render lib .text "%s %s:%d %s Heap:%lu".toList
        [.str a, .str b, .word n, .str c, .word h]
      = some (cstr a ++ ' ' :: (cstr b ++ ':' :: (decS n ++ ' ' :: (cstr c ++
          (" Heap:".toList ++ decU h))))) := by
  simp [render, step, Directive.init, NUL, Stage.beforeLen, convert_d, convert_lu, convert_s,
    padLeft]

theorem render_esp32 (lib : Directive → Arg → List Char) (text : List Char) (args : List Arg)
    (m h : Nat) :
    render lib .text ("%d Heap: %6d ".toList ++ text) (.word m :: .word h :: args)
      = (render lib .text text args).map (fun msg =>
          decS m ++ (" Heap: ".toList ++ (padLeft 6 (decS h) ++ ' ' :: msg))) := by
  rcases hr : render lib .text text args with _ | msg <;>
    simp [render, step, Directive.init, NUL, Stage.beforeLen, convert_d, padLeft, hr]

theorem render_esp32_verbose (lib : Directive → Arg → List Char) (text : List Char)
    (args : List Arg) (m h : Nat) :
    render lib .text ("%d Heap: %6d. ".toList ++ text) (.word m :: .word h :: args)
      = (render lib .text text args).map (fun msg =>
          decS m ++ (" Heap: ".toList ++ (padLeft 6 (decS h) ++ '.' :: ' ' :: msg))) := by
  rcases hr : render lib .text text args with _ | msg <;>
    simp [render, step, Directive.init, NUL, Stage.beforeLen, convert_d, padLeft, hr]

theorem render_facility (lib : Directive → Arg → List Char) (L : Level) (text : List Char)
    (args : List Arg) (ms heap : Nat) :
    render lib .text (facilityPreamble L ++ text) (.word ms :: .word heap :: args)
      = (render lib .text text args).map (fun msg => facilityText L ms heap ++ msg) := by
  cases L <;>
    simp only [facilityPreamble, facilityText, render_esp32, render_esp32_verbose] <;>
    rcases render lib .text text args with _ | msg <;> simp

theorem render_facility_alone (lib : Directive → Arg → List Char) (L : Level) (ms heap : Nat) :
    render lib .text (facilityPreamble L) [.word ms, .word heap]
      = some (facilityText L ms heap) := by
  have h := render_facility lib L [] [] ms heap
  simpa [render] using h

theorem convert_d_none (lib : Directive → Arg → List Char) (w : Nat) (args : List Arg)
    (h : ∀ v rest, args ≠ .word v :: rest) :
    convert lib ⟨false, false, false, false, false, w, none, .none, 'd'⟩ args = none := by
  unfold convert
  simp only [Char.reduceEq, if_false, false_or, or_false, true_or, if_true]
  rcases args with _ | ⟨a, rest⟩
  · simp [intArg]
  · cases a with
    | word v => exact absurd rfl (h v rest)
    | _ => simp [intArg]

theorem render_facility_short (lib : Directive → Arg → List Char) (L : Level) (a : Arg) :
    render lib .text (facilityPreamble L) [] = none ∧
      render lib .text (facilityPreamble L) [a] = none := by
  have h0 := convert_d_none lib 0 [] (by simp)
  have h6 := convert_d_none lib 6 [] (by simp)
  constructor
  · cases L <;>
      simp [facilityPreamble, render, step, Directive.init, NUL, Stage.beforeLen, h0]
  · cases a with
    | word v =>
      cases L <;>
        simp [facilityPreamble, render, step, Directive.init, NUL, Stage.beforeLen, convert_d,
          h6]
    | quad v =>
      have h := convert_d_none lib 0 [.quad v] (by simp)
      cases L <;>
        simp [facilityPreamble, render, step, Directive.init, NUL, Stage.beforeLen, h]
    | dbl v =>
      have h := convert_d_none lib 0 [.dbl v] (by simp)
      cases L <;>
        simp [facilityPreamble, render, step, Directive.init, NUL, Stage.beforeLen, h]
    | str v =>
      have h := convert_d_none lib 0 [.str v] (by simp)
      cases L <;>
        simp [facilityPreamble, render, step, Directive.init, NUL, Stage.beforeLen, h]
    | wstr v =>
      have h := convert_d_none lib 0 [.wstr v] (by simp)
      cases L <;>
        simp [facilityPreamble, render, step, Directive.init, NUL, Stage.beforeLen, h]
    | ptr v =>
      have h := convert_d_none lib 0 [.ptr v] (by simp)
      cases L <;>
        simp [facilityPreamble, render, step, Directive.init, NUL, Stage.beforeLen, h]

theorem map_eval_user (env : Env) (args : List Arg) :
    (args.map Expr.user).map (Expr.eval env) = args := by
  induction args with
  | nil => rfl
  | cons a t ih => simp [Expr.eval, ih]

/-! ## `extractFileName` -/

theorem lastSeparatorEnd_none (isSep : Char → Bool) :
    ∀ (l : List Char) (i pos : Nat), (∀ c ∈ l, isSep c = false) →
      lastSeparatorEnd isSep l i pos = pos := by
  intro l
  induction l with
  | nil => intro i pos _; rfl
  | cons a t ih =>
    intro i pos h
    have ha : isSep a = false := h a (List.mem_cons_self _ _)
    simp only [lastSeparatorEnd, ha]
    exact ih _ _ (fun c hc => h c (List.mem_cons_of_mem _ hc))

theorem lastSeparatorEnd_last (isSep : Char → Bool) (c : Char) (suf : List Char)
    (hc : isSep c = true) (hsuf : ∀ d ∈ suf, isSep d = false) :
    ∀ (pre : List Char) (i pos : Nat),
      lastSeparatorEnd isSep (pre ++ c :: suf) i pos = i + pre.length + 1 := by
  intro pre
  induction pre with
  | nil =>
    intro i pos
    simp only [List.nil_append, lastSeparatorEnd, hc, if_true, List.length_nil]
    exact lastSeparatorEnd_none isSep suf _ _ hsuf
  | cons a t ih =>
    intro i pos
    rw [List.cons_append]
    simp only [lastSeparatorEnd, List.length_cons]
    split_ifs
    · rw [ih]; omega
    · rw [ih]; omega

theorem exists_last_separator (isSep : Char → Bool) :
    ∀ l : List Char, (∀ c ∈ l, isSep c = false) ∨
      ∃ pre c suf, l = pre ++ c :: suf ∧ isSep c = true ∧ ∀ d ∈ suf, isSep d = false := by
  intro l
  induction l with
  | nil => left; simp
  | cons a t ih =>
    rcases ih with h | ⟨pre, c, suf, rfl, hc, hsuf⟩
    · cases ha : isSep a
      · left
        intro c hc
        rcases List.mem_cons.1 hc with h1 | h1
        · rw [h1]; exact ha
        · exact h c h1
      · right
        exact ⟨[], a, t, rfl, ha, h⟩
    · right
      exact ⟨a :: pre, c, suf, rfl, hc, hsuf⟩

theorem extractFileName_no_separator (isSep : Char → Bool) (p : List Char)
    (h : ∀ c ∈ p, isSep c = false) : extractFileName isSep p = p := by
  simp [extractFileName, lastSeparatorEnd_none isSep p 0 0 h]

theorem extractFileName_after_last (isSep : Char → Bool) (pre suf : List Char) (c : Char)
    (hc : isSep c = true) (hsuf : ∀ d ∈ suf, isSep d = false) :
    extractFileName isSep (pre ++ c :: suf) = suf := by
  have hdrop : List.drop (pre.length + 1) (pre ++ c :: suf) = suf := by
    induction pre with
    | nil => rfl
    | cons a t ih => simp
  simp only [extractFileName, lastSeparatorEnd_last isSep c suf hc hsuf pre 0 0, Nat.zero_add]
  exact hdrop

theorem extractFileName_noNUL (isSep : Char → Bool) (p : List Char) (h : ∀ c ∈ p, c ≠ NUL) :
    ∀ c ∈ extractFileName isSep p, c ≠ NUL :=
  fun c hc => h c (List.mem_of_mem_drop hc)

/-- C8: `extractFileName p` is `p` itself when `p` has no separator, and
otherwise the part of `p` after its last separator; so it has no separator and
is a suffix of `p`. -/
theorem extractFileName_spec (isSep : Char → Bool) (p : List Char) :
    ((∀ c ∈ p, isSep c = false) → extractFileName isSep p = p) ∧
    (∀ pre c suf, p = pre ++ c :: suf → isSep c = true → (∀ d ∈ suf, isSep d = false) →
      extractFileName isSep p = suf) ∧
    (∀ d ∈ extractFileName isSep p, isSep d = false) ∧
    extractFileName isSep p <:+ p := by
  refine ⟨extractFileName_no_separator isSep p, ?_, ?_, ?_⟩
  · intro pre c suf hp hc hsuf
    rw [hp]
    exact extractFileName_after_last isSep pre suf c hc hsuf
  · rcases exists_last_separator isSep p with h | ⟨pre, c, suf, rfl, hc, hsuf⟩
    · rw [extractFileName_no_separator isSep p h]; exact h
    · rw [extractFileName_after_last isSep pre suf c hc hsuf]; exact hsuf
  · exact List.drop_suffix _ _

/-- C8 on the spec's four paths, with `/` as the separator. -/
theorem extractFileName_spec_witness :
    extractFileName (fun c => c == '/') "/a/b/c.cpp".toList = "c.cpp".toList ∧
    extractFileName (fun c => c == '/') "c.cpp".toList = "c.cpp".toList ∧
    extractFileName (fun c => c == '/') "/a/b/".toList = [] ∧
    extractFileName (fun c => c == '/') [] = [] :=
  ⟨(extractFileName_spec (fun c => c == '/') "/a/b/c.cpp".toList).2.1
      "/a/b".toList '/' "c.cpp".toList rfl rfl (by decide),
    (extractFileName_spec (fun c => c == '/') "c.cpp".toList).1 (by decide),
    (extractFileName_spec (fun c => c == '/') "/a/b/".toList).2.1
      "/a/b".toList '/' [] rfl rfl (by decide),
    (extractFileName_spec (fun c => c == '/') []).1 (by decide)⟩

/-! ## Execution of the expansions -/

theorem callSite_stream (cfg : Config) (hport : cfg.DEBUG_ESP_PORT = true)
    (h8266 : cfg.ESP8266 = true) (L : Level) (hL : L.value ≤ cfg.DEBUG_LEVEL) (site : Site)
    (text : List Char) (args : List Arg) :
    callSite cfg L site text args
      = some [D_PFX site, .snprintf_P ._dbg2 DBG2_LEN text (args.map .user),
          ._dbgP L.value ._dbg1 ._dbg2] := by
  cases L <;>
    simp [callSite, DEBUG_ERROR, DEBUG_WARN, DEBUG_INFO, DEBUG_DBG, DEBUG_VERBOSE, hport,
      h8266, Level.value] <;>
    simpa [Level.value] using hL

theorem callSite_stream_closed (cfg : Config) (hport : cfg.DEBUG_ESP_PORT = true)
    (h8266 : cfg.ESP8266 = true) (L : Level) (hL : cfg.DEBUG_LEVEL < L.value) (site : Site)
    (text : List Char) (args : List Arg) :
    callSite cfg L site text args = some [] := by
  cases L <;>
    simp [callSite, DEBUG_ERROR, DEBUG_WARN, DEBUG_INFO, DEBUG_DBG, DEBUG_VERBOSE, hport,
      h8266, Level.value] <;>
    simpa [Level.value] using hL

theorem callSite_esp32 (cfg : Config) (hport : cfg.DEBUG_ESP_PORT = true)
    (h8266 : cfg.ESP8266 = false) (h32 : cfg.ESP32 = true) (L : Level) (site : Site)
    (text : List Char) (args : List Arg) :
    callSite cfg L site text args
      = some [.espLog (specSeverity L) DEFAULT_LOG_TAG (facilityPreamble L ++ text)
          (.millis :: .getFreeHeap :: args.map .user)] := by
  cases L <;>
    simp [callSite, DEBUG_ERROR, DEBUG_WARN, DEBUG_INFO, DEBUG_DBG, DEBUG_VERBOSE, hport,
      h8266, h32, specSeverity, facilityPreamble]

theorem exec_D_PFX (env : Env) (site : Site) (st : State) :
    (D_PFX site).exec env st
      = some (st.setBuf ._dbg1 (writeBounded st._dbg1 DBG1_LEN (lineHead env site))) := by
  simp only [D_PFX, Stmt.exec, List.map, Expr.eval, render_D_PFX, Option.map_some', State.buf,
    lineHead]

theorem run_stream (env : Env) (L : Level) (site : Site) (text : List Char) (args : List Arg)
    (st : State) :
    run env [D_PFX site, .snprintf_P ._dbg2 DBG2_LEN text (args.map .user),
        ._dbgP L.value ._dbg1 ._dbg2] st
      = (render env.implDefined .text text args).map (streamResult env L site st) := by
  simp only [run, exec_D_PFX, Option.some_bind]
  rcases hr : render env.implDefined .text text args with _ | msg <;>
    simp only [Stmt.exec, map_eval_user, hr, State.setBuf, State.buf, Option.some_bind,
      Option.none_bind, Option.map_some', Option.map_none', streamResult]

theorem run_esp32 (env : Env) (L : Level) (text : List Char) (args : List Arg) (st : State) :
    run env [.espLog (specSeverity L) DEFAULT_LOG_TAG (facilityPreamble L ++ text)
        (.millis :: .getFreeHeap :: args.map .user)] st
      = (render env.implDefined .text text args).map (fun msg =>
          { st with
            logged := st.logged ++
              [⟨specSeverity L, DEFAULT_LOG_TAG,
                facilityText L env.millis env.getFreeHeap ++ msg⟩] }) := by
  rcases hr : render env.implDefined .text text args with _ | msg <;>
    simp only [run, Stmt.exec, List.map, Expr.eval, map_eval_user, render_facility, hr,
      Option.some_bind, Option.none_bind, Option.map_some', Option.map_none']

theorem decS_of_lt (n : Nat) (h : n < 2 ^ 31) : decS n = Nat.toDigits 10 n := by
  have h1 : n % 2 ^ 32 = n := Nat.mod_eq_of_lt (by omega)
  unfold decS
  rw [h1, if_pos h]

theorem decU_of_lt (n : Nat) (h : n < 2 ^ 32) : decU n = Nat.toDigits 10 n := by
  unfold decU
  rw [Nat.mod_eq_of_lt h]

theorem lineHead_noNUL (env : Env) (site : Site) : ∀ c ∈ lineHead env site, c ≠ NUL := by
  intro c hc
  simp only [lineHead, List.mem_append, List.mem_cons] at hc
  have hsp : (' ' : Char) ≠ NUL := by decide
  have hcol : (':' : Char) ≠ NUL := by decide
  have hheap : ∀ x ∈ " Heap:".toList, x ≠ NUL := by decide
  rcases hc with h | h | h | h | h | h | h | h | h
  · exact cstr_noNUL _ c h
  · rw [h]; exact hsp
  · exact cstr_noNUL _ c h
  · rw [h]; exact hcol
  · exact decS_noNUL _ c h
  · rw [h]; exact hsp
  · exact cstr_noNUL _ c h
  · exact hheap c h
  · exact decU_noNUL _ c h

theorem lineHead_eq_spec (env : Env) (site : Site) (hts : ∀ c ∈ env._getMS, c ≠ NUL)
    (hfile : ∀ c ∈ site.FILE, c ≠ NUL) (hfun : ∀ c ∈ site.FUNCTION, c ≠ NUL)
    (hline : site.LINE < 2 ^ 31) (hheap : env.getFreeHeap < 2 ^ 32) :
    lineHead env site
      = specLineHead env._getMS (extractFileName env.isSep site.FILE) site.LINE site.FUNCTION
          env.getFreeHeap := by
  simp [lineHead, specLineHead, cstr_eq_self _ hts, cstr_eq_self _ hfun,
    cstr_eq_self _ (extractFileName_noNUL env.isSep _ hfile), decS_of_lt _ hline,
    decU_of_lt _ hheap]

theorem streamResult_bounds (env : Env) (L : Level) (site : Site) (st : State)
    (h1 : st._dbg1.length = DBG1_LEN) (h2 : st._dbg2.length = DBG2_LEN) (msg : List Char) :
    (streamResult env L site st msg)._dbg1.length = DBG1_LEN ∧
    (streamResult env L site st msg)._dbg2.length = DBG2_LEN ∧
    Holds (streamResult env L site st msg)._dbg1 (cstr (streamResult env L site st msg)._dbg1) ∧
    Holds (streamResult env L site st msg)._dbg2 (cstr (streamResult env L site st msg)._dbg2) ∧
    (cstr (streamResult env L site st msg)._dbg1).length ≤ DBG1_LEN - 1 ∧
    (cstr (streamResult env L site st msg)._dbg2).length ≤ DBG2_LEN - 1 :=
  ⟨(writeBounded_length _ _ _ (le_of_eq h1.symm)).trans h1,
    (writeBounded_length _ _ _ (le_of_eq h2.symm)).trans h2,
    writeBounded_holds st._dbg1 (lineHead env site) DBG1_LEN (by decide),
    writeBounded_holds st._dbg2 msg DBG2_LEN (by decide),
    cstr_writeBounded_length st._dbg1 (lineHead env site) DBG1_LEN (by decide),
    cstr_writeBounded_length st._dbg2 msg DBG2_LEN (by decide)⟩

/-! ## The severity gate -/

/-- C1: on the stream backend (`DEBUG_ESP_PORT` and `ESP8266` defined) the call
site of level `L` expands to nothing exactly when `DEBUG_LEVEL < L`, and then
executing it changes nothing.  Otherwise it expands to exactly three
statements: `snprintf_P` of the line head into `_dbg1`, `snprintf_P` of the
user template into `_dbg2`, `_dbgP(L, _dbg1, _dbg2)`; and executing them, when
the user template renders to `msg`, leaves the line head in `_dbg1` and `msg`
in `_dbg2`, both cut to their array, and calls the dispatcher exactly once,
with level `L` and the two strings just written, in that order. -/
theorem stream_gate (cfg : Config) (hport : cfg.DEBUG_ESP_PORT = true)
    (h8266 : cfg.ESP8266 = true) (L : Level) (site : Site) (text : List Char)
    (args : List Arg) :
    (callSite cfg L site text args = some [] ↔ cfg.DEBUG_LEVEL < L.value) ∧
    (cfg.DEBUG_LEVEL < L.value → ∀ (env : Env) (st : State),
      (callSite cfg L site text args).bind (fun stmts => run env stmts st) = some st) ∧
    (L.value ≤ cfg.DEBUG_LEVEL →
      callSite cfg L site text args
        = some [.snprintf_P ._dbg1 72 "%s %s:%d %s Heap:%lu".toList
            [._getMS, .extractFileName site.FILE, .LINE site.LINE, .FUNCTION site.FUNCTION,
              .getFreeHeap],
          .snprintf_P ._dbg2 140 text (args.map .user),
          ._dbgP L.value ._dbg1 ._dbg2]) ∧
    (L.value ≤ cfg.DEBUG_LEVEL → ∀ (env : Env) (st : State),
      (callSite cfg L site text args).bind (fun stmts => run env stmts st)
        = (render env.implDefined .text text args).map (fun msg =>
            { _dbg1 := writeBounded st._dbg1 72 (lineHead env site)
              _dbg2 := writeBounded st._dbg2 140 msg
              dispatched := st.dispatched ++
                [⟨L.value, cstr (writeBounded st._dbg1 72 (lineHead env site)),
                  cstr (writeBounded st._dbg2 140 msg)⟩]
              logged := st.logged })) := by
  refine ⟨?_, ?_, ?_, ?_⟩
  · cases L <;>
      simp [callSite, DEBUG_ERROR, DEBUG_WARN, DEBUG_INFO, DEBUG_DBG, DEBUG_VERBOSE, hport,
        h8266, Level.value, D_PFX]
  · intro hL env st
    rw [callSite_stream_closed cfg hport h8266 L hL]
    rfl
  · intro hL
    rw [callSite_stream cfg hport h8266 L hL]
    rfl
  · intro hL env st
    rw [callSite_stream cfg hport h8266 L hL, Option.some_bind, run_stream]
    rfl

/-- C1 at the spec's example, `DEBUG_LEVEL` at `INFO`: `DEBUG_DBG("x=%d", 5)`
expands to nothing, while `DEBUG_INFO("temp=%d", 42)` at
"/sensors/temp.cpp":10 in `readTemp` leaves the line head in `_dbg1`,
"temp=42" in `_dbg2` and makes one dispatcher call with them. -/
theorem stream_gate_witness :
    DEBUG_DBG ⟨true, true, false, INFO⟩ ⟨"/sensors/temp.cpp".toList, 10, "readTemp".toList⟩ "x=%d".toList [.word 5] = some [] ∧
    ((DEBUG_INFO ⟨true, true, false, INFO⟩ ⟨"/sensors/temp.cpp".toList, 10, "readTemp".toList⟩ "temp=%d".toList [.word 42]).bind
        (fun stmts => run ⟨"0.001".toList, 40000, 1234, fun c => c == '/', fun _ _ => []⟩ stmts State.init)).map
        (fun st => (cstr st._dbg1, cstr st._dbg2, st.dispatched))
      = some ("0.001 temp.cpp:10 readTemp Heap:40000".toList, "temp=42".toList,
          [⟨INFO, "0.001 temp.cpp:10 readTemp Heap:40000".toList, "temp=42".toList⟩]) :=
  ⟨((stream_gate ⟨true, true, false, INFO⟩ rfl rfl .dbg ⟨"/sensors/temp.cpp".toList, 10, "readTemp".toList⟩ "x=%d".toList [.word 5]).1).2
      (by decide),
    by
      have h := (stream_gate ⟨true, true, false, INFO⟩ rfl rfl .info ⟨"/sensors/temp.cpp".toList, 10, "readTemp".toList⟩ "temp=%d".toList
        [.word 42]).2.2.2 (by decide) ⟨"0.001".toList, 40000, 1234, fun c => c == '/', fun _ _ => []⟩ State.init
      rw [show callSite ⟨true, true, false, INFO⟩ .info ⟨"/sensors/temp.cpp".toList, 10, "readTemp".toList⟩ "temp=%d".toList [.word 42]
        = DEBUG_INFO ⟨true, true, false, INFO⟩ ⟨"/sensors/temp.cpp".toList, 10, "readTemp".toList⟩ "temp=%d".toList [.word 42] from rfl] at h
      rw [h]
      rfl⟩

/-- C2: with `DEBUG_ESP_PORT` undefined every call site, at every level, for
every `DEBUG_LEVEL` and every combination of `ESP8266` and `ESP32`, is defined
and expands to nothing; executing it leaves buffers and traces as they were. -/
theorem no_port_all_empty (cfg : Config) (hport : cfg.DEBUG_ESP_PORT = false) (L : Level)
    (site : Site) (text : List Char) (args : List Arg) (env : Env) (st : State) :
    callSite cfg L site text args = some [] ∧
    (callSite cfg L site text args).bind (fun stmts => run env stmts st) = some st := by
  cases L <;>
    simp [callSite, DEBUG_ERROR, DEBUG_WARN, DEBUG_INFO, DEBUG_DBG, DEBUG_VERBOSE, hport, run]

/-- C2 at one build: no port, both platform names defined, `DEBUG_LEVEL` at
`VERBOSE`, an error call site. -/
theorem no_port_all_empty_witness :
    callSite ⟨false, true, true, VERBOSE⟩ .error ⟨"/a/b.cpp".toList, 3, "f".toList⟩
      "fail %d".toList [.word 7] = some [] :=
  (no_port_all_empty ⟨false, true, true, VERBOSE⟩ rfl .error ⟨"/a/b.cpp".toList, 3, "f".toList⟩
    "fail %d".toList [.word 7] ⟨[], 0, 0, fun c => c == '/', fun _ _ => []⟩ State.init).1

/-- C3, the code at the failing input: on the ESP32 branch with `DEBUG_LEVEL` at
`NO_DEBUG`, `DEBUG_ERROR("fail %d", 7)` does not expand to nothing: it is one
`ESP_LOGE` invocation, and executing it hands a line to the logging
subsystem. -/
theorem esp32_not_gated :
    DEBUG_ERROR ⟨true, false, true, NO_DEBUG⟩ ⟨"/sensors/temp.cpp".toList, 10, "readTemp".toList⟩
        "fail %d".toList [.word 7]
      = some [.espLog .ESP_LOGE "EnigmaIOT".toList "%d Heap: %6d fail %d".toList
          [.millis, .getFreeHeap, .user (.word 7)]] ∧
    ((DEBUG_ERROR ⟨true, false, true, NO_DEBUG⟩
        ⟨"/sensors/temp.cpp".toList, 10, "readTemp".toList⟩ "fail %d".toList [.word 7]).bind
        (fun stmts => run ⟨"0.001".toList, 40000, 1234, fun c => c == '/', fun _ _ => []⟩ stmts State.init)).map
        (fun st => st.logged)
      = some [⟨.ESP_LOGE, "EnigmaIOT".toList, "1234 Heap:  40000 fail 7".toList⟩] := by
  constructor
  · rfl
  · rfl

/-! ## The line formatter -/

/-- C4: when the timestamp string, the file path and the routine name are C
strings (no terminator inside), the line and heap reading fit their 32-bit
types, and the whole text has at most `DBG1_LEN - 1 = 71` characters, `D_PFX`
leaves in `_dbg1` exactly timestamp, blank, base name, colon, line, blank,
routine, " Heap:", heap; it touches nothing else. -/
theorem D_PFX_exact (env : Env) (site : Site) (st : State)
    (hts : ∀ c ∈ env._getMS, c ≠ NUL) (hfile : ∀ c ∈ site.FILE, c ≠ NUL)
    (hfun : ∀ c ∈ site.FUNCTION, c ≠ NUL) (hline : site.LINE < 2 ^ 31)
    (hheap : env.getFreeHeap < 2 ^ 32)
    (hfit : (specLineHead env._getMS (extractFileName env.isSep site.FILE) site.LINE
      site.FUNCTION env.getFreeHeap).length ≤ DBG1_LEN - 1) :
    ∃ st', (D_PFX site).exec env st = some st' ∧
      cstr st'._dbg1
        = specLineHead env._getMS (extractFileName env.isSep site.FILE) site.LINE site.FUNCTION
            env.getFreeHeap ∧
      st'._dbg2 = st._dbg2 ∧ st'.dispatched = st.dispatched ∧ st'.logged = st.logged := by
  refine ⟨_, exec_D_PFX env site st, ?_, rfl, rfl, rfl⟩
  show cstr (writeBounded st._dbg1 DBG1_LEN (lineHead env site)) = _
  rw [cstr_writeBounded _ _ _ (by decide), cstr_eq_self _ (lineHead_noNUL env site),
    lineHead_eq_spec env site hts hfile hfun hline hheap, List.take_of_length_le hfit]

/-- C4 at the spec's call site: file "/sensors/temp.cpp", line 10, routine
`readTemp`, with timestamp "0.001" and 40000 bytes free. -/
theorem D_PFX_exact_witness :
    ∃ st', (D_PFX ⟨"/sensors/temp.cpp".toList, 10, "readTemp".toList⟩).exec
        ⟨"0.001".toList, 40000, 1234, fun c => c == '/', fun _ _ => []⟩ State.init = some st' ∧
      cstr st'._dbg1 = "0.001 temp.cpp:10 readTemp Heap:40000".toList ∧
      st'._dbg2 = State.init._dbg2 ∧ st'.dispatched = [] ∧ st'.logged = [] :=
  D_PFX_exact ⟨"0.001".toList, 40000, 1234, fun c => c == '/', fun _ _ => []⟩
    ⟨"/sensors/temp.cpp".toList, 10, "readTemp".toList⟩ State.init (by decide) (by decide)
    (by decide) (by decide) (by decide) (by decide)

/-- C5: a retained stream call site, for every user template and argument
list.  The line head always renders (to `head`).  Whenever the call completes,
both arrays still have their declared size and each holds a terminated
string, of at most `DBG1_LEN - 1 = 71` and `DBG2_LEN - 1 = 139` characters.
The call completes whenever the user template renders with its arguments (to
`msg`), and then `_dbg1` holds the first 71 characters of `head` and `_dbg2`
the first 139 characters of `msg`: the whole text when it fits, its truncation
otherwise.  (`head` and `msg` are read as C strings.) -/
theorem stream_buffers_bounded (cfg : Config) (hport : cfg.DEBUG_ESP_PORT = true)
    (h8266 : cfg.ESP8266 = true) (L : Level) (hL : L.value ≤ cfg.DEBUG_LEVEL) (env : Env)
    (site : Site) (text : List Char) (args : List Arg) (st : State)
    (h1 : st._dbg1.length = DBG1_LEN) (h2 : st._dbg2.length = DBG2_LEN) :
    ∃ head,
      render env.implDefined .text "%s %s:%d %s Heap:%lu".toList
          [.str env._getMS, .str (extractFileName env.isSep site.FILE), .word site.LINE,
            .str site.FUNCTION, .word env.getFreeHeap] = some head ∧
      (∀ st', (callSite cfg L site text args).bind (fun stmts => run env stmts st) = some st' →
        st'._dbg1.length = DBG1_LEN ∧ st'._dbg2.length = DBG2_LEN ∧
        Holds st'._dbg1 (cstr st'._dbg1) ∧ Holds st'._dbg2 (cstr st'._dbg2) ∧
        (cstr st'._dbg1).length ≤ DBG1_LEN - 1 ∧ (cstr st'._dbg2).length ≤ DBG2_LEN - 1) ∧
      (∀ msg, render env.implDefined .text text args = some msg →
        ∃ st', (callSite cfg L site text args).bind (fun stmts => run env stmts st) = some st' ∧
          cstr st'._dbg1 = (cstr head).take (DBG1_LEN - 1) ∧
          cstr st'._dbg2 = (cstr msg).take (DBG2_LEN - 1) ∧
          ((cstr head).length ≤ DBG1_LEN - 1 → cstr st'._dbg1 = cstr head) ∧
          ((cstr msg).length ≤ DBG2_LEN - 1 → cstr st'._dbg2 = cstr msg)) := by
  have hrun : (callSite cfg L site text args).bind (fun stmts => run env stmts st)
      = (render env.implDefined .text text args).map (streamResult env L site st) := by
    rw [callSite_stream cfg hport h8266 L hL, Option.some_bind, run_stream]
  refine ⟨lineHead env site, render_D_PFX _ _ _ _ _ _, ?_, ?_⟩
  · intro st' hst
    rw [hrun] at hst
    rcases Option.map_eq_some'.1 hst with ⟨msg, _, rfl⟩
    exact streamResult_bounds env L site st h1 h2 msg
  · intro msg hmsg
    have hA : cstr (streamResult env L site st msg)._dbg1
        = (cstr (lineHead env site)).take (DBG1_LEN - 1) :=
      cstr_writeBounded st._dbg1 (lineHead env site) DBG1_LEN (by decide)
    have hB : cstr (streamResult env L site st msg)._dbg2 = (cstr msg).take (DBG2_LEN - 1) :=
      cstr_writeBounded st._dbg2 msg DBG2_LEN (by decide)
    refine ⟨streamResult env L site st msg, ?_, hA, hB, ?_, ?_⟩
    · rw [hrun, hmsg]; rfl
    · intro hfit
      rw [hA, List.take_of_length_le hfit]
    · intro hfit
      rw [hB, List.take_of_length_le hfit]

/-- C5 at a concrete call: `DEBUG_INFO("temp=%d", 42)` with `DEBUG_LEVEL` at
`VERBOSE`, from the zero-filled arrays. -/
theorem stream_buffers_bounded_witness :
    ∃ head,
      render (fun _ _ => []) .text "%s %s:%d %s Heap:%lu".toList
          [.str "0.001".toList,
            .str (extractFileName (fun c => c == '/') "/sensors/temp.cpp".toList), .word 10,
            .str "readTemp".toList, .word 40000] = some head ∧
      (∀ st', (callSite ⟨true, true, false, VERBOSE⟩ .info ⟨"/sensors/temp.cpp".toList, 10, "readTemp".toList⟩ "temp=%d".toList
          [.word 42]).bind (fun stmts => run ⟨"0.001".toList, 40000, 1234, fun c => c == '/', fun _ _ => []⟩ stmts State.init) = some st' →
        st'._dbg1.length = DBG1_LEN ∧ st'._dbg2.length = DBG2_LEN ∧
        Holds st'._dbg1 (cstr st'._dbg1) ∧ Holds st'._dbg2 (cstr st'._dbg2) ∧
        (cstr st'._dbg1).length ≤ DBG1_LEN - 1 ∧ (cstr st'._dbg2).length ≤ DBG2_LEN - 1) ∧
      (∀ msg, render (fun _ _ => []) .text "temp=%d".toList [.word 42] = some msg →
        ∃ st', (callSite ⟨true, true, false, VERBOSE⟩ .info ⟨"/sensors/temp.cpp".toList, 10, "readTemp".toList⟩ "temp=%d".toList
            [.word 42]).bind (fun stmts => run ⟨"0.001".toList, 40000, 1234, fun c => c == '/', fun _ _ => []⟩ stmts State.init) = some st' ∧
          cstr st'._dbg1 = (cstr head).take (DBG1_LEN - 1) ∧
          cstr st'._dbg2 = (cstr msg).take (DBG2_LEN - 1) ∧
          ((cstr head).length ≤ DBG1_LEN - 1 → cstr st'._dbg1 = cstr head) ∧
          ((cstr msg).length ≤ DBG2_LEN - 1 → cstr st'._dbg2 = cstr msg)) :=
  stream_buffers_bounded ⟨true, true, false, VERBOSE⟩ rfl rfl .info (by decide)
    ⟨"0.001".toList, 40000, 1234, fun c => c == '/', fun _ _ => []⟩ ⟨"/sensors/temp.cpp".toList, 10, "readTemp".toList⟩ "temp=%d".toList [.word 42] State.init (by decide) (by decide)

set_option maxRecDepth 20000 in
theorem stream_truncation_example :
    ((callSite ⟨true, true, false, VERBOSE⟩ .info
        ⟨"/sensors/temp.cpp".toList, 10, "readTemp".toList⟩ (List.replicate 150 'x') []).bind
        (fun stmts => run ⟨"0.001".toList, 40000, 1234, fun c => c == '/', fun _ _ => []⟩ stmts State.init)).map
        (fun st => (st._dbg2.length, cstr st._dbg2))
      = some (140, List.replicate 139 'x') := by
  rfl

theorem stream_valid_directives_example :
    ((callSite ⟨true, true, false, VERBOSE⟩ .info ⟨"/sensors/temp.cpp".toList, 10, "readTemp".toList⟩ "%02X:%02x %c %-4s|%5.3d".toList
        [.word 10, .word 255, .word 65, .str "ab".toList, .word 7]).bind
        (fun stmts => run ⟨"0.001".toList, 40000, 1234, fun c => c == '/', fun _ _ => []⟩ stmts State.init)).map
        (fun st => cstr st._dbg2)
      = some "0A:ff A ab  |  007".toList := by
  rfl

/-! ## The structured backend -/

/-- C6: on the ESP32 branch a call site of level `L` is exactly one
logging invocation, through the entry point of the severity the spec maps `L`
to and with the tag "EnigmaIOT"; the mapping is injective; and when the user
template renders, executing the call site hands exactly one line to the
logging subsystem and touches neither array nor the dispatcher. -/
theorem esp32_one_invocation (cfg : Config) (hport : cfg.DEBUG_ESP_PORT = true)
    (h8266 : cfg.ESP8266 = false) (h32 : cfg.ESP32 = true) (L : Level) (site : Site)
    (text : List Char) (args : List Arg) :
    (∃ fmt xs, callSite cfg L site text args
      = some [.espLog (specSeverity L) "EnigmaIOT".toList fmt xs]) ∧
    Function.Injective specSeverity ∧
    (∀ (env : Env) (st : State) (msg : List Char),
      render env.implDefined .text text args = some msg →
      ∃ body, (callSite cfg L site text args).bind (fun stmts => run env stmts st)
        = some { st with
            logged := st.logged ++ [⟨specSeverity L, "EnigmaIOT".toList, body⟩] }) := by
  refine ⟨⟨_, _, callSite_esp32 cfg hport h8266 h32 L site text args⟩, ?_, ?_⟩
  · intro a b hab
    cases a <;> cases b <;> simp [specSeverity] at hab <;> rfl
  · intro env st msg hmsg
    refine ⟨facilityText L env.millis env.getFreeHeap ++ msg, ?_⟩
    rw [callSite_esp32 cfg hport h8266 h32 L site text args, Option.some_bind, run_esp32, hmsg]
    rfl

/-- C6 at a concrete call: `DEBUG_WARN("low %u", 3)` on ESP32 logs one line
through `ESP_LOGW` with tag "EnigmaIOT". -/
theorem esp32_one_invocation_witness :
    ∃ body, (callSite ⟨true, false, true, NO_DEBUG⟩ .warn ⟨"/a/b.cpp".toList, 3, "f".toList⟩
        "low %u".toList [.word 3]).bind
        (fun stmts => run ⟨"0.001".toList, 40000, 1234, fun c => c == '/', fun _ _ => []⟩ stmts State.init)
      = some { State.init with logged := [⟨.ESP_LOGW, "EnigmaIOT".toList, body⟩] } :=
  (esp32_one_invocation ⟨true, false, true, NO_DEBUG⟩ rfl rfl rfl .warn
    ⟨"/a/b.cpp".toList, 3, "f".toList⟩ "low %u".toList [.word 3]).2.2
    ⟨"0.001".toList, 40000, 1234, fun c => c == '/', fun _ _ => []⟩ State.init "low 3".toList (by decide)

/-- C7 as stated fails: on ESP32, `DEBUG_INFO("temp=%d", 42)` at
"/sensors/temp.cpp":10 in `readTemp` forwards "1234 Heap:  40000 temp=42",
which contains neither "temp.cpp:10" nor "readTemp". -/
theorem esp32_text_lacks_location :
    ((callSite ⟨true, false, true, VERBOSE⟩ .info
        ⟨"/sensors/temp.cpp".toList, 10, "readTemp".toList⟩ "temp=%d".toList [.word 42]).bind
        (fun stmts => run ⟨"0.001".toList, 40000, 1234, fun c => c == '/', fun _ _ => []⟩ stmts State.init)).map
        (fun st => st.logged)
      = some [⟨.ESP_LOGI, "EnigmaIOT".toList, "1234 Heap:  40000 temp=42".toList⟩] ∧
    ¬ ("temp.cpp:10".toList <:+: "1234 Heap:  40000 temp=42".toList) ∧
    ¬ ("readTemp".toList <:+: "1234 Heap:  40000 temp=42".toList) ∧
    ¬ CarriesLocation (fun c => c == '/') ⟨"/sensors/temp.cpp".toList, 10, "readTemp".toList⟩
        "1234 Heap:  40000 temp=42".toList := by
  have hfun : ¬ ("readTemp".toList <:+: "1234 Heap:  40000 temp=42".toList) := by decide
  refine ⟨rfl, by decide, hfun, fun h => hfun h.2⟩

/-- C7 as amended: on the ESP32 branch the expansion is the same at every call
site (no file, line or routine name enters it); and while the `millis()` and
free-heap readings are below 2^31, the text handed to the logging subsystem
is the `millis()` reading in decimal, " Heap: ", the free-heap reading in
decimal right-justified in six columns, a blank (". " at `VERBOSE`), then the
rendered user message; a line is handed over exactly when the user template
renders. -/
theorem esp32_forwarded_text (cfg : Config) (hport : cfg.DEBUG_ESP_PORT = true)
    (h8266 : cfg.ESP8266 = false) (h32 : cfg.ESP32 = true) (L : Level) (site other : Site)
    (text : List Char) (args : List Arg) (env : Env) (st : State) :
    callSite cfg L site text args = callSite cfg L other text args ∧
    (env.millis < 2 ^ 31 → env.getFreeHeap < 2 ^ 31 →
      ((callSite cfg L site text args).bind (fun stmts => run env stmts st)).map
          (fun st' => st'.logged)
        = (render env.implDefined .text text args).map (fun msg =>
            st.logged ++
              [⟨specSeverity L, DEFAULT_LOG_TAG,
                Nat.toDigits 10 env.millis ++ " Heap: ".toList ++
                  padLeft 6 (Nat.toDigits 10 env.getFreeHeap) ++
                  (if L = .verbose then ". ".toList else " ".toList) ++ msg⟩])) := by
  constructor
  · rw [callSite_esp32 cfg hport h8266 h32 L site, callSite_esp32 cfg hport h8266 h32 L other]
  · intro hms hheap
    rw [callSite_esp32 cfg hport h8266 h32 L site text args, Option.some_bind, run_esp32]
    rcases render env.implDefined .text text args with _ | msg
    · rfl
    · cases L <;> simp [facilityText, decS_of_lt _ hms, decS_of_lt _ hheap]

/-- C7 as amended, at the call of the counterexample and another call site. -/
theorem esp32_forwarded_text_witness :
    callSite ⟨true, false, true, VERBOSE⟩ .info
        ⟨"/sensors/temp.cpp".toList, 10, "readTemp".toList⟩ "temp=%d".toList [.word 42]
      = callSite ⟨true, false, true, VERBOSE⟩ .info ⟨"/main.cpp".toList, 77, "loop".toList⟩
          "temp=%d".toList [.word 42] ∧
    ((callSite ⟨true, false, true, VERBOSE⟩ .info
        ⟨"/sensors/temp.cpp".toList, 10, "readTemp".toList⟩ "temp=%d".toList [.word 42]).bind
        (fun stmts => run ⟨"0.001".toList, 40000, 1234, fun c => c == '/', fun _ _ => []⟩ stmts State.init)).map
        (fun st' => st'.logged)
      = some [⟨.ESP_LOGI, "EnigmaIOT".toList, "1234 Heap:  40000 temp=42".toList⟩] :=
  ⟨(esp32_forwarded_text ⟨true, false, true, VERBOSE⟩ rfl rfl rfl .info
      ⟨"/sensors/temp.cpp".toList, 10, "readTemp".toList⟩ ⟨"/main.cpp".toList, 77, "loop".toList⟩
      "temp=%d".toList [.word 42] ⟨"0.001".toList, 40000, 1234, fun c => c == '/', fun _ _ => []⟩ State.init).1,
    ((esp32_forwarded_text ⟨true, false, true, VERBOSE⟩ rfl rfl rfl .info
      ⟨"/sensors/temp.cpp".toList, 10, "readTemp".toList⟩ ⟨"/main.cpp".toList, 77, "loop".toList⟩
      "temp=%d".toList [.word 42] ⟨"0.001".toList, 40000, 1234, fun c => c == '/', fun _ _ => []⟩ State.init).2 (by decide) (by decide)).trans rfl⟩

/-- C9: on the ESP32 branch, for every user template and argument list, the
format of the one logging invocation is the level's preamble followed by the
user template, and its arguments are `millis()`, the free heap, then the user
arguments in order.  The preamble has exactly two placeholders: it does not
render with no argument or with one, and with the two facility arguments it
renders to the preamble text.  The whole renders exactly when the user
template renders with the user arguments alone, and then to the preamble text
followed by that rendering. -/
theorem esp32_format_and_args (cfg : Config) (hport : cfg.DEBUG_ESP_PORT = true)
    (h8266 : cfg.ESP8266 = false) (h32 : cfg.ESP32 = true) (L : Level) (site : Site)
    (text : List Char) (args : List Arg) (env : Env) :
    callSite cfg L site text args
      = some [.espLog (specSeverity L) DEFAULT_LOG_TAG (facilityPreamble L ++ text)
          (.millis :: .getFreeHeap :: args.map .user)] ∧
    render env.implDefined .text (facilityPreamble L) [] = none ∧
    (∀ a, render env.implDefined .text (facilityPreamble L) [a] = none) ∧
    render env.implDefined .text (facilityPreamble L) [.word env.millis, .word env.getFreeHeap]
      = some (facilityText L env.millis env.getFreeHeap) ∧
    render env.implDefined .text (facilityPreamble L ++ text)
        ((Expr.millis :: Expr.getFreeHeap :: args.map Expr.user).map (Expr.eval env))
      = (render env.implDefined .text text args).map
          (fun msg => facilityText L env.millis env.getFreeHeap ++ msg) := by
  refine ⟨callSite_esp32 cfg hport h8266 h32 L site text args,
    (render_facility_short _ L (.word 0)).1, fun a => (render_facility_short _ L a).2,
    render_facility_alone _ L _ _, ?_⟩
  simp only [List.map, Expr.eval, map_eval_user, render_facility]

/-- C9 at the spec's example: `DEBUG_ERROR("fail %d", 7)` renders to a text
that ends in "fail 7". -/
theorem esp32_format_and_args_witness :
    render (fun _ _ => []) .text ("%d Heap: %6d ".toList ++ "fail %d".toList)
        [.word 1234, .word 40000, .word 7]
      = some ("1234 Heap:  40000 ".toList ++ "fail 7".toList) :=
  ((esp32_format_and_args ⟨true, false, true, ERROR⟩ rfl rfl rfl .error
    ⟨"/sensors/temp.cpp".toList, 10, "readTemp".toList⟩ "fail %d".toList [.word 7]
    ⟨"0.001".toList, 40000, 1234, fun c => c == '/', fun _ _ => []⟩).2.2.2.2).trans rfl

theorem esp32_valid_directives_example :
    ((callSite ⟨true, false, true, ERROR⟩ .error ⟨"/sensors/temp.cpp".toList, 10, "readTemp".toList⟩ "mac %02X:%02X rssi %d".toList
        [.word 10, .word 255, .word (2 ^ 32 - 70)]).bind
        (fun stmts => run ⟨"0.001".toList, 40000, 1234, fun c => c == '/', fun _ _ => []⟩ stmts State.init)).map
        (fun st => st.logged)
      = some [⟨.ESP_LOGE, "EnigmaIOT".toList,
          "1234 Heap:  40000 mac 0A:FF rssi -70".toList⟩] := by
  rfl

/-! ## A call site under an unbraced `if` -/

theorem underIf_false_single (env : Env) (s : Stmt) (st : State) :
    run env (underIf false [s]) st = some st := by
  simp [underIf, run, Stmt.exec]

theorem underIf_false_nothing (env : Env) (st : State) :
    run env (underIf false []) st = some st := by
  simp [underIf, run, Stmt.exec]

theorem underIf_false_esp32 (cfg : Config) (hport : cfg.DEBUG_ESP_PORT = true)
    (h8266 : cfg.ESP8266 = false) (h32 : cfg.ESP32 = true) (L : Level) (site : Site)
    (text : List Char) (args : List Arg) (env : Env) (st : State) :
    (callSite cfg L site text args).bind (fun stmts => run env (underIf false stmts) st)
      = some st := by
  rw [callSite_esp32 cfg hport h8266 h32 L site text args, Option.some_bind]
  exact underIf_false_single env _ st

/-- C10, the code at the failing input: with `DEBUG_LEVEL` at `INFO` on the
stream backend, `if (false) DEBUG_INFO("temp=%d", 42);` still writes `_dbg2`
and still calls `_dbgP`, with the line head that was in `_dbg1` before (here
the empty string of the zero-filled array): only `D_PFX()` is under the
`if`. -/
theorem unbraced_if_guards_first_only :
    ((DEBUG_INFO ⟨true, true, false, INFO⟩ ⟨"/sensors/temp.cpp".toList, 10, "readTemp".toList⟩
        "temp=%d".toList [.word 42]).bind
        (fun stmts =>
          run ⟨"0.001".toList, 40000, 1234, fun c => c == '/', fun _ _ => []⟩ (underIf false stmts)
            State.init)).map
        (fun st => (cstr st._dbg1, cstr st._dbg2, st.dispatched))
      = some ([], "temp=42".toList, [⟨INFO, [], "temp=42".toList⟩]) := by
  rfl

end EnigmaIOT
